import Mathlib

/-!
Shallow embedding of the lazyBot product scraper (src/main.py) and proofs
about its specified behaviour.  Text is modelled as `List Char`, the file
system as a list of events, browser/HTTP interactions as per-entry oracles.
-/

set_option linter.unusedVariables false

abbrev Str := List Char

/-- Python whitespace class used by `str.strip` and the regex `\s`. -/
def isWs (c : Char) : Bool :=
  c == ' ' || c == '\t' || c == '\n' || c == '\r' || c == '\x0b' || c == '\x0c'

/-- The characters removed by `re.sub(r'[<>:"/\\|?*]', '', name)`. -/
def isForbidden (c : Char) : Bool :=
  c == '<' || c == '>' || c == ':' || c == '"' || c == '/' || c == '\\' ||
  c == '|' || c == '?' || c == '*'

/-- First step of `sanitize_folder_name`: drop the forbidden characters. -/
def removeForbidden (s : Str) : Str := s.filter (fun c => !(isForbidden c))

/-- Worker for whitespace collapsing; the flag records whether the previous
input character was whitespace already replaced by a space. -/
def collapseGo : Bool → Str → Str
  | _, [] => []
  | prevWs, c :: cs =>
    if isWs c then
      (if prevWs then collapseGo true cs else ' ' :: collapseGo true cs)
    else c :: collapseGo false cs

/-- Second step of `sanitize_folder_name`: `re.sub(r'\s+', ' ', name)`. -/
def collapseWs (s : Str) : Str := collapseGo false s

/-- Python `str.lstrip()` for whitespace. -/
def lstrip (s : Str) : Str := s.dropWhile isWs

/-- Python `str.rstrip()` for whitespace. -/
def rstrip (s : Str) : Str := (s.reverse.dropWhile isWs).reverse

/-- Python `str.strip()` for whitespace. -/
def strip (s : Str) : Str := rstrip (lstrip s)

/-- `sanitize_folder_name` from src/main.py lines 16-27: remove forbidden
characters, collapse whitespace runs, strip, then cut to 100 characters. -/
def sanitize_folder_name (s : Str) : Str :=
  let s1 := removeForbidden s
  let s2 := collapseWs s1
  let s3 := strip s2
  if s3.length > 100 then s3.take 100 else s3

/-- Fuel-driven decimal rendering worker (models Python `str(int)`). -/
def natStrGo : Nat → Nat → Str → Str
  | 0, _, acc => acc
  | fuel + 1, n, acc =>
    if n < 10 then Nat.digitChar n :: acc
    else natStrGo fuel (n / 10) (Nat.digitChar (n % 10) :: acc)

/-- Decimal rendering of a natural number, as used in f-strings. -/
def natStr (n : Nat) : Str := natStrGo (n + 1) n []

/-- Python `str.split('\n')`: always returns at least one piece. -/
def splitOnNl : Str → List Str
  | [] => [[]]
  | c :: cs =>
    if c = '\n' then [] :: splitOnNl cs
    else
      match splitOnNl cs with
      | [] => [[c]]
      | l :: ls => (c :: l) :: ls

def notColon (c : Char) : Bool := !(c == ':')

/-- The per-line CSV row loop from src/main.py lines 224-233 / 237-246:
`for i, line in enumerate(lines, 1)`, skipping blank lines, splitting on
the first colon, otherwise synthesising a `<pre> <i>` label. -/
def rowsForBlockAux (pre : Str) : Nat → List Str → List (Str × Str)
  | _, [] => []
  | i, l :: ls =>
    let line := strip l
    (if line = [] then []
     else if ':' ∈ line then
       [(strip (line.takeWhile notColon), strip ((line.dropWhile notColon).drop 1))]
     else [(pre ++ ' ' :: natStr i, line)]) ++ rowsForBlockAux pre (i + 1) ls

/-- Declarative description of what the row loop does to the line at a given
1-based position counted over ALL lines of the block. -/
def rowFor (pre : Str) (pr : Nat × Str) : Option (Str × Str) :=
  let line := strip pr.2
  if line = [] then none
  else if ':' ∈ line then
    some (strip (line.takeWhile notColon), strip ((line.dropWhile notColon).drop 1))
  else some (pre ++ ' ' :: natStr pr.1, line)

/-- Outcome of `requests.get(url, timeout=10)`: a response with a status
code and byte payload, or a raised transport exception. -/
inductive FetchOutcome
  | resp (status : Nat) (body : List Nat)
  | exn
deriving DecidableEq

/-- What `download_image` did: what it wrote (if anything) and its return. -/
structure DownloadResult where
  written : Option (List Nat)
  success : Bool
deriving DecidableEq

/-- `download_image` from src/main.py lines 29-40: write the payload and
return True only when the status code is exactly 200; any exception or
other status writes nothing and returns False. -/
def download_image (outcome : FetchOutcome) : DownloadResult :=
  match outcome with
  | .resp status body =>
    if status = 200 then { written := some body, success := true }
    else { written := none, success := false }
  | .exn => { written := none, success := false }

/-- `os.path.join` for one extra component, as in CPython posixpath. -/
def pathJoin (a b : Str) : Str :=
  if b.head? = some '/' then b
  else if a = [] then a ++ b
  else if a.getLast? = some '/' then a ++ b
  else a ++ '/' :: b

/-- Durable-storage events emitted by the run, in program order. -/
inductive FsEvent
  | mkdir (path : Str)
  | writeBytes (path : Str) (content : List Nat)
  | writeCsv (path : Str) (rows : List (Str × Str))
deriving DecidableEq

def eventPath : FsEvent → Str
  | .mkdir p => p
  | .writeBytes p _ => p
  | .writeCsv p _ => p

def isCsvWrite : FsEvent → Bool
  | .writeCsv _ _ => true
  | _ => false

inductive FileData
  | bytes (b : List Nat)
  | csv (rows : List (Str × Str))
  | dir
deriving DecidableEq

def eventData : FsEvent → FileData
  | .mkdir _ => .dir
  | .writeBytes _ b => .bytes b
  | .writeCsv _ rows => .csv rows

/-- State of a path after a list of events: last writer wins (mode 'wb'
and 'w' truncate and overwrite). -/
def fsAfter (evs : List FsEvent) (p : Str) : Option FileData :=
  (evs.reverse.find? (fun ev => eventPath ev == p)).map eventData

/-- Exception kinds distinguished by the scraper's handlers. -/
inductive Exc
  | noSuchElement
  | clickIntercepted
  | otherExc
deriving DecidableEq

/-- Outcome of one browser-engine call: a value or a raised exception. -/
inductive Res (α : Type)
  | ok (val : α)
  | err (e : Exc)
deriving DecidableEq

/-- Oracle for one swatch button: what each Selenium call inside the
per-swatch try block would do. -/
structure SwatchCtl where
  scrollRes : Res Unit
  clickRes : Res Unit
  jsClickRes : Res Unit
  imgLookup : Res (Option Str)
  fetch : FetchOutcome
deriving DecidableEq

/-- Re-locating the image and reading `src` / `data-src` after activation. -/
def afterActivate (c : SwatchCtl) : Option Str :=
  match c.imgLookup with
  | .ok (some u) => some u
  | _ => none

/-- The url obtained for a control, `none` when any step of the per-swatch
body fails (every exception is caught by the per-swatch handler). -/
def ctlImageUrl (c : SwatchCtl) : Option Str :=
  match c.scrollRes with
  | .err _ => none
  | .ok _ =>
    match c.clickRes with
    | .ok _ => afterActivate c
    | .err .clickIntercepted =>
      match c.jsClickRes with
      | .ok _ => afterActivate c
      | .err _ => none
    | .err _ => none

def swatchName (i : Nat) : Str := "swatch_".toList ++ natStr i ++ ".jpg".toList

/-- The file write produced for the control at 1-based position `i`. -/
def ctlEvent (folder : Str) (i : Nat) (c : SwatchCtl) : Option FsEvent :=
  match ctlImageUrl c with
  | none => none
  | some _ =>
    match (download_image c.fetch).written with
    | some body => some (.writeBytes (pathJoin folder (swatchName i)) body)
    | none => none

/-- The swatch loop of src/main.py lines 154-181:
`for swatch_index, button in enumerate(swatch_buttons, 1)). -/
def swatchLoopAux (folder : Str) : Nat → List SwatchCtl → List FsEvent
  | _, [] => []
  | i, c :: cs =>
    match ctlEvent folder i c with
    | some ev => ev :: swatchLoopAux folder (i + 1) cs
    | none => swatchLoopAux folder (i + 1) cs

/-- Oracle for one product tile: what each browser call of the per-entry
body would do. -/
structure ProductEntry where
  scrollRes : Res Unit
  nameLookup : Res Str
  mainImgLookup : Res (Option Str)
  mainFetch : FetchOutcome
  swatchLookup : Res (List SwatchCtl)
  detailLookup : Res Str
  pricingLookup : Res Str
deriving DecidableEq

def rootDir : Str := "scraped_products".toList
def rootSlash : Str := "scraped_products/".toList
def mainImageName : Str := "main_image.jpg".toList
def csvFileName : Str := "product_details.csv".toList
def headerRow : Str × Str := ("Field".toList, "Value".toList)
def productNameLabel : Str := "Product Name".toList
def pricingMarker : Str := "=== PRICING ===".toList
def detailsMarker : Str := "=== DETAILS ===".toList
def priceLabel : Str := "Price".toList
def detailLabel : Str := "Detail".toList
def defaultName (n : Nat) : Str := "Product_".toList ++ natStr n

/-- Result of one step of the per-entry body: the step completed (its
events), or an exception escaped the step's own handler. -/
inductive StepOut (α : Type)
  | done (val : α)
  | raised (e : Exc)
deriving DecidableEq

/-- Name resolution (src/main.py lines 96-121): only
`NoSuchElementException` is caught by the step's handler; an empty
stripped name is replaced by `Product_<index>`. -/
def nameStepRes (e : ProductEntry) (n : Nat) : StepOut (Str × Str × List FsEvent) :=
  match e.nameLookup with
  | .ok t =>
    let pname := if strip t = [] then defaultName n else strip t
    let folder := pathJoin rootDir (sanitize_folder_name pname)
    .done (pname, folder, [.mkdir folder])
  | .err .noSuchElement =>
    let pname := defaultName n
    let folder := pathJoin rootDir pname
    .done (pname, folder, [.mkdir folder])
  | .err ex => .raised ex

/-- Step 1, main image capture (src/main.py lines 123-137). -/
def step1 (e : ProductEntry) (folder : Str) : StepOut (List FsEvent) :=
  match e.mainImgLookup with
  | .err .noSuchElement => .done []
  | .err ex => .raised ex
  | .ok none => .done []
  | .ok (some _) =>
    match (download_image e.mainFetch).written with
    | some body => .done [.writeBytes (pathJoin folder mainImageName) body]
    | none => .done []

/-- Step 2, swatch processing (src/main.py lines 139-186). -/
def step2 (e : ProductEntry) (folder : Str) : StepOut (List FsEvent) :=
  match e.swatchLookup with
  | .err .noSuchElement => .done []
  | .err ex => .raised ex
  | .ok ctls => .done (swatchLoopAux folder 1 ctls)

/-- The CSV rows written by src/main.py lines 212-246, in writer order. -/
def csvRows (pname detailText pricingText : Str) : List (Str × Str) :=
  let detailLines := splitOnNl (strip detailText)
  let pricingLines := if pricingText = [] then [] else splitOnNl (strip pricingText)
  [headerRow, (productNameLabel, pname)] ++
  (if pricingLines = [] then []
   else (pricingMarker, []) :: rowsForBlockAux priceLabel 1 pricingLines) ++
  ((detailsMarker, []) :: rowsForBlockAux detailLabel 1 detailLines)

/-- Step 3, detail/pricing extraction and persistence (src/main.py lines
188-255).  A missing item-detail element aborts the step before the CSV
file is opened; a missing item-pricing element leaves pricing empty. -/
def step3 (e : ProductEntry) (pname folder : Str) : StepOut (List FsEvent) :=
  match e.detailLookup with
  | .err .noSuchElement => .done []
  | .err ex => .raised ex
  | .ok detailText =>
    match e.pricingLookup with
    | .err .noSuchElement =>
      .done [.writeCsv (pathJoin folder csvFileName) (csvRows pname detailText [])]
    | .err ex => .raised ex
    | .ok pricingText =>
      .done [.writeCsv (pathJoin folder csvFileName) (csvRows pname detailText pricingText)]

/-- The body of the per-entry try block (src/main.py lines 91-260): runs
the steps in order; an exception escaping a step's own handler aborts the
remaining steps and is returned to the per-entry handler. -/
def entryBody (e : ProductEntry) (n : Nat) : List FsEvent × Option Exc :=
  match e.scrollRes with
  | .err ex => ([], some ex)
  | .ok _ =>
    match nameStepRes e n with
    | .raised ex => ([], some ex)
    | .done (pname, folder, ev0) =>
      match step1 e folder with
      | .raised ex => (ev0, some ex)
      | .done ev1 =>
        match step2 e folder with
        | .raised ex => (ev0 ++ ev1, some ex)
        | .done ev2 =>
          match step3 e pname folder with
          | .raised ex => (ev0 ++ ev1 ++ ev2, some ex)
          | .done ev3 => (ev0 ++ ev1 ++ ev2 ++ ev3, none)

/-- Per-entry processing as seen by the catalog loop: the per-entry
`except Exception` handler (src/main.py lines 262-264) swallows whatever
escaped, so only the events remain. -/
def processEntry (e : ProductEntry) (n : Nat) : List FsEvent := (entryBody e n).1

/-- The catalog for-loop with its 1-based `enumerate`. -/
def runLoop : Nat → List ProductEntry → List (Nat × List FsEvent)
  | _, [] => []
  | i, e :: es => (i, processEntry e i) :: runLoop (i + 1) es

/-- The catalog driver (src/main.py lines 75-86):
`products_to_process = min(limit, total)` and iteration over the slice. -/
def catalogRun (limit : Nat) (entries : List ProductEntry) : List (Nat × List FsEvent) :=
  runLoop 1 (entries.take (min limit entries.length))

/-- Effective pricing text reaching the CSV writer: the looked-up text, or
empty when the pricing element is missing, or nothing when the lookup
raised an exception that kills the step. -/
def effPricing (e : ProductEntry) : Option Str :=
  match e.pricingLookup with
  | .ok p => some p
  | .err .noSuchElement => some []
  | .err _ => none

/-- A lookup outcome that the per-step handlers fully absorb. -/
def nseOk {α : Type} : Res α → Prop
  | .ok _ => True
  | .err .noSuchElement => True
  | .err _ => False

/-- A path that lies directly in the scraped_products root. -/
def rootLevelPath (p : Str) : Prop :=
  p.take rootSlash.length = rootSlash ∧ '/' ∉ p.drop rootSlash.length

/-- Adjacent-pair whitespace check: no two consecutive whitespace chars. -/
def noDoubleWs : Str → Bool
  | [] => true
  | [_] => true
  | a :: b :: t => !(isWs a && isWs b) && noDoubleWs (b :: t)

/-! ### Helper lemmas about the sanitizer -/

theorem mem_collapseGo {c : Char} :
    ∀ (l : Str) (b : Bool), c ∈ collapseGo b l → c = ' ' ∨ c ∈ l := by
  intro l
  induction l with
  | nil => intro b h; simp [collapseGo] at h
  | cons a t ih =>
    intro b h
    by_cases ha : isWs a = true
    · simp [collapseGo, ha] at h
      cases b with
      | true =>
        rcases ih true h with h' | h'
        · exact Or.inl h'
        · exact Or.inr (List.mem_cons_of_mem _ h')
      | false =>
        rcases List.mem_cons.mp h with h' | h'
        · exact Or.inl h'
        · rcases ih true h' with h'' | h''
          · exact Or.inl h''
          · exact Or.inr (List.mem_cons_of_mem _ h'')
    · simp [collapseGo, ha] at h
      rcases h with h' | h'
      · exact Or.inr (by simp [h'])
      · rcases ih false h' with h'' | h''
        · exact Or.inl h''
        · exact Or.inr (List.mem_cons_of_mem _ h'')

theorem collapseGo_ws_space {c : Char} :
    ∀ (l : Str) (b : Bool), c ∈ collapseGo b l → isWs c = true → c = ' ' := by
  intro l
  induction l with
  | nil => intro b h; simp [collapseGo] at h
  | cons a t ih =>
    intro b h hw
    by_cases ha : isWs a = true
    · simp [collapseGo, ha] at h
      cases b with
      | true => exact ih true h hw
      | false =>
        rcases List.mem_cons.mp h with h' | h'
        · exact h'
        · exact ih true h' hw
    · simp [collapseGo, ha] at h
      rcases h with h' | h'
      · rw [h'] at hw; exact absurd hw (by simp [ha])
      · exact ih false h' hw

theorem collapseGo_true_head :
    ∀ l : Str, ((collapseGo true l).head?).all (fun c => !(isWs c)) = true := by
  intro l
  induction l with
  | nil => rfl
  | cons a t ih =>
    by_cases ha : isWs a = true
    · simpa [collapseGo, ha] using ih
    · simp [collapseGo, ha]

theorem chain_collapseGo :
    ∀ (l : Str) (b : Bool),
      List.Chain' (fun a b => (isWs a && isWs b) = false) (collapseGo b l) := by
  intro l
  induction l with
  | nil => intro b; simp [collapseGo]
  | cons a t ih =>
    intro b
    by_cases ha : isWs a = true
    · cases b with
      | true => simpa [collapseGo, ha] using ih true
      | false =>
        rw [show collapseGo false (a :: t) = ' ' :: collapseGo true t by
          simp [collapseGo, ha]]
        rw [List.chain'_cons']
        refine ⟨?_, ih true⟩
        intro y hy
        have := collapseGo_true_head t
        rw [hy] at this
        simp only [Option.all_some] at this
        have hy' : isWs y = false := by
          cases h : isWs y
          · rfl
          · rw [h] at this; exact absurd this (by simp)
        simp [hy']
    · rw [show collapseGo b (a :: t) = a :: collapseGo false t by
        simp [collapseGo, ha]]
      rw [List.chain'_cons']
      refine ⟨?_, ih false⟩
      intro y hy
      have ha' : isWs a = false := by
        cases h : isWs a
        · rfl
        · exact absurd h ha
      simp [ha']

theorem lstrip_head :
    ∀ y : Str, ((lstrip y).head?).all (fun c => !(isWs c)) = true := by
  intro y
  induction y with
  | nil => rfl
  | cons a t ih =>
    by_cases ha : isWs a = true
    · simpa [lstrip, List.dropWhile_cons, ha] using ih
    · simp [lstrip, List.dropWhile_cons, ha]

theorem head?_of_isPrefix {α : Type} {l₁ l₂ : List α} (h : l₁ <+: l₂) {c : α}
    (hc : l₁.head? = some c) : l₂.head? = some c := by
  obtain ⟨t, rfl⟩ := h
  cases l₁ with
  | nil => simp at hc
  | cons a s => simpa using hc

theorem rstrip_isPrefix (l : Str) : rstrip l <+: l := by
  have h1 : l.reverse.dropWhile isWs <:+ l.reverse := List.dropWhile_suffix isWs
  have h2 : (l.reverse.dropWhile isWs).reverse <+: l.reverse.reverse :=
    List.reverse_prefix.mpr h1
  simpa [rstrip] using h2

theorem rstrip_head (z : Str)
    (h : (z.head?).all (fun c => !(isWs c)) = true) :
    ((rstrip z).head?).all (fun c => !(isWs c)) = true := by
  cases hz : (rstrip z).head? with
  | none => simp
  | some c =>
    have := head?_of_isPrefix (rstrip_isPrefix z) hz
    rw [this] at h
    simpa using h

theorem mem_rstrip {c : Char} {l : Str} (h : c ∈ rstrip l) : c ∈ l := by
  have := (List.dropWhile_sublist (l := l.reverse) isWs).subset
  have h2 : c ∈ l.reverse.dropWhile isWs := by
    simpa [rstrip] using h
  exact List.mem_reverse.mp (this h2)

theorem mem_lstrip {c : Char} {l : Str} (h : c ∈ lstrip l) : c ∈ l :=
  (List.dropWhile_sublist isWs).subset h

theorem mem_strip {c : Char} {l : Str} (h : c ∈ strip l) : c ∈ l :=
  mem_lstrip (mem_rstrip h)

theorem mem_sanitize {c : Char} {s : Str} (h : c ∈ sanitize_folder_name s) :
    c ∈ collapseWs (removeForbidden s) := by
  have h2 : c ∈ strip (collapseWs (removeForbidden s)) := by
    by_cases hl :
        (strip (collapseWs (removeForbidden s))).length > 100
    · have h3 := h
      rw [show sanitize_folder_name s
            = (strip (collapseWs (removeForbidden s))).take 100 by
          simp [sanitize_folder_name, hl]] at h3
      exact ((List.take_prefix 100 _).sublist).subset h3
    · rwa [show sanitize_folder_name s
            = strip (collapseWs (removeForbidden s)) by
          simp [sanitize_folder_name, hl]] at h
  exact mem_strip h2

theorem sanitize_no_forbidden_mem {c : Char} {s : Str}
    (h : c ∈ sanitize_folder_name s) : isForbidden c = false := by
  rcases mem_collapseGo _ false (mem_sanitize h) with h' | h'
  · rw [h']; rfl
  · have := (List.mem_filter.mp h').2
    simpa using this

theorem sanitize_ws_space {c : Char} {s : Str}
    (h : c ∈ sanitize_folder_name s) (hw : isWs c = true) : c = ' ' :=
  collapseGo_ws_space _ false (mem_sanitize h) hw

theorem sanitize_length (s : Str) : (sanitize_folder_name s).length ≤ 100 := by
  by_cases hl : (strip (collapseWs (removeForbidden s))).length > 100
  · rw [show sanitize_folder_name s
        = (strip (collapseWs (removeForbidden s))).take 100 by
      simp [sanitize_folder_name, hl]]
    exact List.length_take_le 100 _
  · rw [show sanitize_folder_name s
        = strip (collapseWs (removeForbidden s)) by
      simp [sanitize_folder_name, hl]]
    omega

theorem strip_head (y : Str) :
    ((strip y).head?).all (fun c => !(isWs c)) = true :=
  rstrip_head (lstrip y) (lstrip_head y)

theorem head?_take100 (l : Str) : (l.take 100).head? = l.head? := by
  cases l <;> rfl

theorem sanitize_head (s : Str) :
    ((sanitize_folder_name s).head?).all (fun c => !(isWs c)) = true := by
  by_cases hl : (strip (collapseWs (removeForbidden s))).length > 100
  · rw [show sanitize_folder_name s
        = (strip (collapseWs (removeForbidden s))).take 100 by
      simp [sanitize_folder_name, hl]]
    rw [head?_take100]
    exact strip_head _
  · rw [show sanitize_folder_name s
        = strip (collapseWs (removeForbidden s)) by
      simp [sanitize_folder_name, hl]]
    exact strip_head _

theorem chain_rstrip {l : Str}
    (h : List.Chain' (fun a b => (isWs a && isWs b) = false) l) :
    List.Chain' (fun a b => (isWs a && isWs b) = false) (rstrip l) :=
  List.Chain'.prefix h (rstrip_isPrefix l)

theorem chain_lstrip {l : Str}
    (h : List.Chain' (fun a b => (isWs a && isWs b) = false) l) :
    List.Chain' (fun a b => (isWs a && isWs b) = false) (lstrip l) :=
  List.Chain'.suffix h (List.dropWhile_suffix isWs)

theorem chain_sanitize (s : Str) :
    List.Chain' (fun a b => (isWs a && isWs b) = false)
      (sanitize_folder_name s) := by
  have hc : List.Chain' (fun a b => (isWs a && isWs b) = false)
      (strip (collapseWs (removeForbidden s))) :=
    chain_rstrip (chain_lstrip (chain_collapseGo _ false))
  by_cases hl : (strip (collapseWs (removeForbidden s))).length > 100
  · rw [show sanitize_folder_name s
        = (strip (collapseWs (removeForbidden s))).take 100 by
      simp [sanitize_folder_name, hl]]
    exact List.Chain'.take hc 100
  · rwa [show sanitize_folder_name s
        = strip (collapseWs (removeForbidden s)) by
      simp [sanitize_folder_name, hl]]

theorem noDoubleWs_iff_chain (l : Str) :
    noDoubleWs l = true ↔
      List.Chain' (fun a b => (isWs a && isWs b) = false) l := by
  induction l with
  | nil => simp [noDoubleWs]
  | cons a t ih =>
    cases t with
    | nil => simp [noDoubleWs]
    | cons b t' =>
      rw [List.chain'_cons, ← ih]
      show (!(isWs a && isWs b) && noDoubleWs (b :: t')) = true ↔ _
      constructor
      · intro h
        have h1 := (Bool.and_eq_true_iff.mp h).1
        have h2 := (Bool.and_eq_true_iff.mp h).2
        exact ⟨by cases hab : (isWs a && isWs b) with
          | true => rw [hab] at h1; exact absurd h1 (by simp)
          | false => rfl, h2⟩
      · intro ⟨h1, h2⟩
        rw [h1, h2]
        rfl

/-! ### Fixed points of the sanitizer pipeline -/

theorem collapseGo_true_eq (l : Str)
    (h : (l.head?).all (fun c => !(isWs c)) = true) :
    collapseGo true l = collapseGo false l := by
  cases l with
  | nil => rfl
  | cons a t =>
    have ha : isWs a = false := by
      simp only [List.head?_cons, Option.all_some] at h
      cases hw : isWs a
      · rfl
      · rw [hw] at h; exact absurd h (by simp)
    simp [collapseGo, ha]

theorem collapseGo_fixed :
    ∀ l : Str, (∀ c ∈ l, isWs c = true → c = ' ') →
      List.Chain' (fun a b => (isWs a && isWs b) = false) l →
      collapseGo false l = l := by
  intro l
  induction l with
  | nil => intro _ _; rfl
  | cons a t ih =>
    intro hsp hch
    have hch' := List.chain'_cons'.mp hch
    by_cases ha : isWs a = true
    · have ha' : a = ' ' := hsp a (by simp) ha
      have hhd : (t.head?).all (fun c => !(isWs c)) = true := by
        cases hh : t.head? with
        | none => rfl
        | some y =>
          have := hch'.1 y hh
          rw [ha] at this
          simp only [Option.all_some]
          cases hy : isWs y
          · rfl
          · rw [hy] at this; exact absurd this (by simp)
      have ht : collapseGo false t = t :=
        ih (fun c hc => hsp c (List.mem_cons_of_mem _ hc)) hch'.2
      rw [show collapseGo false (a :: t) = ' ' :: collapseGo true t by
        simp [collapseGo, ha]]
      rw [collapseGo_true_eq t hhd, ht, ha']
    · have ha' : isWs a = false := by
        cases hw : isWs a
        · rfl
        · exact absurd hw ha
      rw [show collapseGo false (a :: t) = a :: collapseGo false t by
        simp [collapseGo, ha']]
      rw [ih (fun c hc => hsp c (List.mem_cons_of_mem _ hc)) hch'.2]

theorem lstrip_eq_self (l : Str)
    (h : (l.head?).all (fun c => !(isWs c)) = true) : lstrip l = l := by
  cases l with
  | nil => rfl
  | cons a t =>
    have ha : isWs a = false := by
      simp only [List.head?_cons, Option.all_some] at h
      cases hw : isWs a
      · rfl
      · rw [hw] at h; exact absurd h (by simp)
    simp [lstrip, List.dropWhile_cons, ha]

theorem rstrip_length_le (l : Str) : (rstrip l).length ≤ l.length := by
  have h1 := (List.dropWhile_sublist (l := l.reverse) isWs).length_le
  simpa [rstrip] using h1

theorem removeForbidden_sanitize (s : Str) :
    removeForbidden (sanitize_folder_name s) = sanitize_folder_name s := by
  apply List.filter_eq_self.mpr
  intro c hc
  simp [sanitize_no_forbidden_mem hc]

theorem collapseWs_sanitize (s : Str) :
    collapseWs (sanitize_folder_name s) = sanitize_folder_name s :=
  collapseGo_fixed _ (fun c hc => sanitize_ws_space hc) (chain_sanitize s)

theorem lstrip_sanitize (s : Str) :
    lstrip (sanitize_folder_name s) = sanitize_folder_name s :=
  lstrip_eq_self _ (sanitize_head s)

def cexLong : Str := List.replicate 99 'a' ++ [' ', 'b']

/-- C3: for every input, `sanitize_folder_name` output contains no
forbidden character, is at most 100 characters long, has no leading
whitespace and no run of two or more consecutive whitespace characters.
The original claim additionally asserted no trailing whitespace, which
fails (see the counterexample); this is the amended form. -/
theorem sanitize_output_shape (s : Str) :
    (sanitize_folder_name s).all (fun c => !(isForbidden c)) = true ∧
    (sanitize_folder_name s).length ≤ 100 ∧
    ((sanitize_folder_name s).head?).all (fun c => !(isWs c)) = true ∧
    noDoubleWs (sanitize_folder_name s) = true := by
  refine ⟨?_, sanitize_length s, sanitize_head s,
    (noDoubleWs_iff_chain _).mpr (chain_sanitize s)⟩
  rw [List.all_eq_true]
  intro c hc
  simp [sanitize_no_forbidden_mem hc]

/-- C3 counterexample: the input of 99 `a`s, a space and a `b` sanitizes
to a 100-character string whose last character is a space, because the
100-character cut happens after stripping, so the output CAN end in
whitespace, contradicting the claim. -/
theorem sanitize_trailing_ws_cex :
    sanitize_folder_name cexLong = List.replicate 99 'a' ++ [' '] ∧
    isWs ((sanitize_folder_name cexLong).getLastD 'a') = true := by decide

/-- C4 (amended): `sanitize_folder_name` is not idempotent in general; a
second application exactly removes the possible trailing whitespace left
by truncation: sanitize ∘ sanitize = rstrip ∘ sanitize.  In particular it
is idempotent on every input whose sanitized form does not end in a
space. -/
theorem sanitize_second_strips (s : Str) :
    sanitize_folder_name (sanitize_folder_name s)
      = rstrip (sanitize_folder_name s) := by
  have h1 : removeForbidden (sanitize_folder_name s) = sanitize_folder_name s :=
    removeForbidden_sanitize s
  have h2 : collapseWs (sanitize_folder_name s) = sanitize_folder_name s :=
    collapseWs_sanitize s
  have h3 : lstrip (sanitize_folder_name s) = sanitize_folder_name s :=
    lstrip_sanitize s
  have hlen : (rstrip (sanitize_folder_name s)).length ≤ 100 :=
    le_trans (rstrip_length_le _) (sanitize_length s)
  rw [sanitize_folder_name]
  simp only [h1, h2, strip, h3]
  have : ¬ (rstrip (sanitize_folder_name s)).length > 100 := by omega
  simp [this]

/-- C4 counterexample: sanitation of 99 `a`s, a space and a `b` is not a
fixed point of `sanitize_folder_name`, refuting idempotence. -/
theorem sanitize_idem_cex :
    sanitize_folder_name (sanitize_folder_name cexLong)
      ≠ sanitize_folder_name cexLong := by decide

/-! ### RecordParser: fallback-label ordinals -/

/-- C2 (amended): the fallback ordinal assigned by the row loop to a
colon-free non-blank line is the line's 1-based position among ALL lines
of the block (`enumerate(lines, 1)`), so blank interior lines consume
ordinals and fallback numbering can have gaps; line order is preserved
and colon lines are split on the first colon with both parts trimmed. -/
theorem fallback_ordinal_all_lines (pre : Str) (i : Nat) (lines : List Str) :
    rowsForBlockAux pre i lines = (List.enumFrom i lines).filterMap (rowFor pre) := by
  induction lines generalizing i with
  | nil => rfl
  | cons l ls ih =>
    rw [List.enumFrom_cons, List.filterMap_cons]
    show (if strip l = [] then []
          else if ':' ∈ strip l then
            [(strip ((strip l).takeWhile notColon),
              strip (((strip l).dropWhile notColon).drop 1))]
          else [(pre ++ ' ' :: natStr i, strip l)]) ++ rowsForBlockAux pre (i + 1) ls
        = _
    rw [ih]
    by_cases h1 : strip l = []
    · simp [rowFor, h1]
    · by_cases h2 : ':' ∈ strip l
      · simp [rowFor, h1, h2]
      · simp [rowFor, h1, h2]

/-- C2 counterexample: for the block "A\n\nB" the second non-blank line
`B` receives the fallback label "Detail 3", not "Detail 2": the ordinal
counts the interior blank line as well, so numbering is neither computed
over non-blank lines only nor gap-free. -/
theorem fallback_ordinal_cex :
    rowsForBlockAux detailLabel 1 (splitOnNl (strip "A\n\nB".toList)) =
      [("Detail 1".toList, "A".toList), ("Detail 3".toList, "B".toList)] ∧
    ("Detail 2".toList, "B".toList) ∉
      rowsForBlockAux detailLabel 1 (splitOnNl (strip "A\n\nB".toList)) := by decide

/-! ### AssetDownloader -/

/-- C6 (amended): `download_image` reports success and writes the payload
verbatim (overwriting any previous content at the destination) exactly
when the fetch returns status 200; any transport exception or any other
status — including other 2xx statuses — writes nothing and reports
failure. -/
theorem download_success_iff_200 :
    (∀ b : List Nat, download_image (.resp 200 b)
        = { written := some b, success := true }) ∧
    (∀ (s : Nat) (b : List Nat), s ≠ 200 →
      download_image (.resp s b) = { written := none, success := false }) ∧
    download_image .exn = { written := none, success := false } ∧
    (∀ (evs : List FsEvent) (p : Str) (b : List Nat),
      fsAfter (evs ++ [FsEvent.writeBytes p b]) p = some (FileData.bytes b)) := by
  refine ⟨fun b => by simp [download_image], fun s b hs => by simp [download_image, hs],
    rfl, ?_⟩
  intro evs p b
  rw [fsAfter, List.reverse_append]
  simp [List.find?, eventPath, eventData]

/-- C6 witness: a 404 response writes nothing and reports failure. -/
theorem download_success_iff_200_witness :
    download_image (.resp 404 [1, 2]) = { written := none, success := false } :=
  download_success_iff_200.2.1 404 [1, 2] (by decide)

/-- C6 counterexample: status 201 is a 2xx success status, yet the code
(`if response.status_code == 200`) writes nothing and reports failure. -/
theorem download_2xx_cex :
    download_image (.resp 201 [7]) = { written := none, success := false } := by decide

/-! ### SwatchInteractionLoop -/

def demoBody : List Nat := [7, 7, 7]

def goodCtl : SwatchCtl :=
  { scrollRes := .ok (), clickRes := .ok (), jsClickRes := .ok (),
    imgLookup := .ok (some "u".toList), fetch := .resp 200 demoBody }

def badCtl : SwatchCtl := { goodCtl with clickRes := .err .otherExc }

def demoFolder : Str := "scraped_products/Demo".toList

/-- C5: the swatch loop saves the image captured for the control at
1-based discovery position k as `swatch_k.jpg`; a failing control
produces no event but still consumes its ordinal (the loop is the
filterMap of the per-control event over `enumerate(controls, 1)`), and
concretely 3 controls whose second fails yield exactly `swatch_1.jpg`
and `swatch_3.jpg`. -/
theorem swatch_ordinal_naming :
    (∀ (folder : Str) (i : Nat) (cs : List SwatchCtl),
      swatchLoopAux folder i cs
        = (List.enumFrom i cs).filterMap (fun pr => ctlEvent folder pr.1 pr.2)) ∧
    swatchLoopAux demoFolder 1 [goodCtl, badCtl, goodCtl] =
      [FsEvent.writeBytes ("scraped_products/Demo/swatch_1.jpg".toList) demoBody,
       FsEvent.writeBytes ("scraped_products/Demo/swatch_3.jpg".toList) demoBody] := by
  constructor
  · intro folder i cs
    induction cs generalizing i with
    | nil => rfl
    | cons c cs ih =>
      rw [List.enumFrom_cons, List.filterMap_cons]
      show (match ctlEvent folder i c with
            | some ev => ev :: swatchLoopAux folder (i + 1) cs
            | none => swatchLoopAux folder (i + 1) cs) = _
      cases hc : ctlEvent folder i c with
      | none => simpa using ih (i + 1)
      | some ev => simpa using ih (i + 1)
  · decide

/-! ### CatalogEnumerator -/

def demoEntry : ProductEntry :=
  { scrollRes := .ok (), nameLookup := .ok "Chair".toList,
    mainImgLookup := .ok none, mainFetch := .exn, swatchLookup := .ok [],
    detailLookup := .err .noSuchElement, pricingLookup := .err .noSuchElement }

theorem runLoop_length : ∀ (es : List ProductEntry) (i : Nat),
    (runLoop i es).length = es.length := by
  intro es
  induction es with
  | nil => intro i; rfl
  | cons e t ih => intro i; simp [runLoop, ih]

theorem runLoop_get? : ∀ (es : List ProductEntry) (i k : Nat),
    (runLoop i es).get? k = (es.get? k).map (fun e => (i + k, processEntry e (i + k))) := by
  intro es
  induction es with
  | nil => intro i k; simp [runLoop]
  | cons e t ih =>
    intro i k
    cases k with
    | zero => simp [runLoop]
    | succ k' =>
      show (runLoop (i + 1) t).get? k' = _
      rw [ih (i + 1) k']
      have : i + 1 + k' = i + (k' + 1) := by omega
      rw [this]
      simp [List.get?]

/-- C8: the catalog driver processes exactly min(limit, entriesFound)
entries, in discovery order: the k-th processed element is the k-th
discovered entry, processed under ordinal k+1; concretely, limit 5 with
10 entries processes 5 and limit 20 with 10 entries processes 10. -/
theorem catalog_processes_min (limit : Nat) (entries : List ProductEntry) :
    (catalogRun limit entries).length = min limit entries.length ∧
    (∀ k : Nat, (catalogRun limit entries).get? k
      = ((entries.take limit).get? k).map (fun e => (k + 1, processEntry e (k + 1)))) ∧
    (catalogRun 5 (List.replicate 10 demoEntry)).length = 5 ∧
    (catalogRun 20 (List.replicate 10 demoEntry)).length = 10 := by
  refine ⟨?_, ?_, ?_, ?_⟩
  · rw [catalogRun, runLoop_length, List.length_take]
    omega
  · intro k
    rw [catalogRun, runLoop_get?]
    have htk : entries.take (min limit entries.length) = entries.take limit := by
      apply List.take_eq_take.mpr
      omega
    rw [htk]
    have : 1 + k = k + 1 := by omega
    rw [this]
  · rw [catalogRun, runLoop_length, List.length_take]
    simp
  · rw [catalogRun, runLoop_length, List.length_take]
    simp

/-! ### ProductExtractor: fault isolation -/

theorem nameStepRes_done (e : ProductEntry) (n : Nat) (h : nseOk e.nameLookup) :
    ∃ pfe, nameStepRes e n = .done pfe := by
  cases hn : e.nameLookup with
  | ok t => exact ⟨_, by unfold nameStepRes; rw [hn]⟩
  | err ex =>
    cases ex with
    | noSuchElement => exact ⟨_, by unfold nameStepRes; rw [hn]⟩
    | clickIntercepted => rw [hn] at h; exact absurd h (by simp [nseOk])
    | otherExc => rw [hn] at h; exact absurd h (by simp [nseOk])

theorem step1_done (e : ProductEntry) (folder : Str) (h : nseOk e.mainImgLookup) :
    ∃ ev, step1 e folder = .done ev := by
  cases hm : e.mainImgLookup with
  | ok u =>
    cases u with
    | none => exact ⟨_, by unfold step1; rw [hm]⟩
    | some url =>
      cases hw : (download_image e.mainFetch).written with
      | none => exact ⟨_, by unfold step1; rw [hm, hw]⟩
      | some body => exact ⟨_, by unfold step1; rw [hm, hw]⟩
  | err ex =>
    cases ex with
    | noSuchElement => exact ⟨_, by unfold step1; rw [hm]⟩
    | clickIntercepted => rw [hm] at h; exact absurd h (by simp [nseOk])
    | otherExc => rw [hm] at h; exact absurd h (by simp [nseOk])

theorem step2_done (e : ProductEntry) (folder : Str) (h : nseOk e.swatchLookup) :
    ∃ ev, step2 e folder = .done ev := by
  cases hw : e.swatchLookup with
  | ok ctls => exact ⟨_, by unfold step2; rw [hw]⟩
  | err ex =>
    cases ex with
    | noSuchElement => exact ⟨_, by unfold step2; rw [hw]⟩
    | clickIntercepted => rw [hw] at h; exact absurd h (by simp [nseOk])
    | otherExc => rw [hw] at h; exact absurd h (by simp [nseOk])

theorem step3_done (e : ProductEntry) (pname folder : Str)
    (hd : nseOk e.detailLookup) (hp : nseOk e.pricingLookup) :
    ∃ ev, step3 e pname folder = .done ev := by
  cases hdl : e.detailLookup with
  | ok d =>
    cases hpl : e.pricingLookup with
    | ok p => exact ⟨_, by unfold step3; rw [hdl, hpl]⟩
    | err ex =>
      cases ex with
      | noSuchElement => exact ⟨_, by unfold step3; rw [hdl, hpl]⟩
      | clickIntercepted => rw [hpl] at hp; exact absurd hp (by simp [nseOk])
      | otherExc => rw [hpl] at hp; exact absurd hp (by simp [nseOk])
  | err ex =>
    cases ex with
    | noSuchElement => exact ⟨_, by unfold step3; rw [hdl]⟩
    | clickIntercepted => rw [hdl] at hd; exact absurd hd (by simp [nseOk])
    | otherExc => rw [hdl] at hd; exact absurd hd (by simp [nseOk])

theorem entryBody_cascade (e : ProductEntry) (n : Nat)
    (pname folder : Str) (ev0 ev1 ev2 ev3 : List FsEvent)
    (hs : e.scrollRes = .ok ())
    (h0 : nameStepRes e n = .done (pname, folder, ev0))
    (h1 : step1 e folder = .done ev1)
    (h2 : step2 e folder = .done ev2)
    (h3 : step3 e pname folder = .done ev3) :
    entryBody e n = (ev0 ++ ev1 ++ ev2 ++ ev3, none) := by
  simp only [entryBody, hs, h0, h1, h2, h3]

/-- C1 (amended): a NoSuchElement failure of any step's element lookups
is caught inside that step, every subsequent step for the entry still
runs and nothing escapes the per-entry body; but only NoSuchElement is
isolated per step — the per-entry handler still guarantees that nothing
escapes `extract`, while any other exception aborts the remaining steps
of that entry (see the counterexample). -/
theorem extract_nse_isolation (e : ProductEntry) (n : Nat)
    (hs : e.scrollRes = .ok ()) (hn : nseOk e.nameLookup)
    (hm : nseOk e.mainImgLookup) (hw : nseOk e.swatchLookup)
    (hd : nseOk e.detailLookup) (hp : nseOk e.pricingLookup) :
    (entryBody e n).2 = none ∧
    (∀ (pname folder : Str) (ev0 ev1 ev2 ev3 : List FsEvent),
      nameStepRes e n = .done (pname, folder, ev0) →
      step1 e folder = .done ev1 →
      step2 e folder = .done ev2 →
      step3 e pname folder = .done ev3 →
      processEntry e n = ev0 ++ ev1 ++ ev2 ++ ev3) := by
  obtain ⟨⟨pname, folder, ev0⟩, h0⟩ := nameStepRes_done e n hn
  obtain ⟨ev1, h1⟩ := step1_done e folder hm
  obtain ⟨ev2, h2⟩ := step2_done e folder hw
  obtain ⟨ev3, h3⟩ := step3_done e pname folder hd hp
  constructor
  · rw [entryBody_cascade e n pname folder ev0 ev1 ev2 ev3 hs h0 h1 h2 h3]
  · intro pn fo e0 e1 e2 e3 g0 g1 g2 g3
    rw [processEntry, entryBody_cascade e n pn fo e0 e1 e2 e3 hs g0 g1 g2 g3]

/-- C1 witness: for a concrete entry whose lookups all succeed or fail
with NoSuchElement, the per-entry body finishes with no exception. -/
theorem extract_nse_isolation_witness : (entryBody demoEntry 1).2 = none :=
  (extract_nse_isolation demoEntry 1 rfl trivial trivial trivial trivial
    trivial).1

def cexEntryC1 : ProductEntry :=
  { scrollRes := .ok (), nameLookup := .ok "X".toList,
    mainImgLookup := .err .otherExc, mainFetch := .exn,
    swatchLookup := .ok [], detailLookup := .ok "A: B".toList,
    pricingLookup := .err .noSuchElement }

/-- C1 counterexample: an entry whose main-image step raises a
non-NoSuchElement exception.  The exception is caught (at the per-entry
level, so extract does not raise), but the swatch and detail/persistence
steps do NOT run: the only event is the folder creation, and no record
is written even though the detail text was available — refuting the
claim that every subsequent step still runs after an exception in one
step. -/
theorem step_isolation_cex :
    cexEntryC1.detailLookup = .ok "A: B".toList ∧
    cexEntryC1.mainImgLookup = .err .otherExc ∧
    processEntry cexEntryC1 1 = [FsEvent.mkdir ("scraped_products/X".toList)] := by
  decide

/-! ### ProductExtractor: record layout -/

theorem splitOnNl_ne_nil (s : Str) : splitOnNl s ≠ [] := by
  cases s with
  | nil => simp [splitOnNl]
  | cons c cs =>
    rw [splitOnNl]
    by_cases h : c = '\n'
    · simp [h]
    · simp only [h, if_false]
      cases splitOnNl cs <;> simp

/-- C7: every record persisted by the detail/pricing step starts (after
the `Field, Value` header row) with the `("Product Name", name)` row; the
`=== PRICING ===` marker row followed by the pricing fields appears next
exactly when a non-empty pricing text was parsed; and the `=== DETAILS
===` marker row followed by the detail fields always closes the
sequence, so pricing fields always precede detail fields and both
markers are literal rows. -/
theorem record_layout (e : ProductEntry) (n : Nat) (pname folder d p : Str)
    (ev0 ev1 ev2 : List FsEvent)
    (hs : e.scrollRes = .ok ())
    (h0 : nameStepRes e n = .done (pname, folder, ev0))
    (h1 : step1 e folder = .done ev1)
    (h2 : step2 e folder = .done ev2)
    (hd : e.detailLookup = .ok d)
    (hp : effPricing e = some p) :
    processEntry e n = ev0 ++ ev1 ++ ev2 ++
      [FsEvent.writeCsv (pathJoin folder csvFileName)
        ([headerRow, (productNameLabel, pname)] ++
         (if p = [] then []
          else (pricingMarker, []) :: rowsForBlockAux priceLabel 1 (splitOnNl (strip p))) ++
         ((detailsMarker, []) :: rowsForBlockAux detailLabel 1 (splitOnNl (strip d))))] := by
  have hrows : ∀ q : Str, csvRows pname d q =
      [headerRow, (productNameLabel, pname)] ++
      (if q = [] then []
       else (pricingMarker, []) :: rowsForBlockAux priceLabel 1 (splitOnNl (strip q))) ++
      ((detailsMarker, []) :: rowsForBlockAux detailLabel 1 (splitOnNl (strip d))) := by
    intro q
    by_cases hq : q = []
    · simp [csvRows, hq]
    · have hne := splitOnNl_ne_nil (strip q)
      simp [csvRows, hq, hne]
  have h3 : step3 e pname folder
      = .done [FsEvent.writeCsv (pathJoin folder csvFileName) (csvRows pname d p)] := by
    cases hpl : e.pricingLookup with
    | ok q =>
      have : q = p := by
        rw [effPricing, hpl] at hp
        exact Option.some.inj hp
      rw [← this]
      unfold step3; rw [hd, hpl]
    | err ex =>
      cases ex with
      | noSuchElement =>
        have : p = [] := by
          rw [effPricing, hpl] at hp
          exact (Option.some.inj hp).symm
        rw [this]
        unfold step3; rw [hd, hpl]
      | clickIntercepted => rw [effPricing, hpl] at hp; exact absurd hp (by simp)
      | otherExc => rw [effPricing, hpl] at hp; exact absurd hp (by simp)
  rw [processEntry, entryBody_cascade e n pname folder ev0 ev1 ev2 _ hs h0 h1 h2 h3,
    hrows p]

def e7 : ProductEntry :=
  { scrollRes := .ok (), nameLookup := .ok "Test Chair".toList,
    mainImgLookup := .ok none, mainFetch := .exn, swatchLookup := .ok [],
    detailLookup := .ok "Material: Fabric\nWeight: 20 lbs".toList,
    pricingLookup := .err .noSuchElement }

/-- C7 witness: a concrete entry with detail text and no pricing element
persists exactly the header, the product-name row, no pricing section,
and the details marker followed by the parsed detail rows. -/
theorem record_layout_witness :
    processEntry e7 1 = [FsEvent.mkdir ("scraped_products/Test Chair".toList)]
      ++ [] ++ [] ++
      [FsEvent.writeCsv (pathJoin ("scraped_products/Test Chair".toList) csvFileName)
        ([headerRow, (productNameLabel, "Test Chair".toList)] ++
         (if ([] : Str) = [] then []
          else (pricingMarker, []) ::
            rowsForBlockAux priceLabel 1 (splitOnNl (strip ([] : Str)))) ++
         ((detailsMarker, []) ::
           rowsForBlockAux detailLabel 1
             (splitOnNl (strip "Material: Fabric\nWeight: 20 lbs".toList))))] :=
  record_layout e7 1 "Test Chair".toList "scraped_products/Test Chair".toList
    "Material: Fabric\nWeight: 20 lbs".toList [] 
    [FsEvent.mkdir ("scraped_products/Test Chair".toList)] [] []
    rfl (by decide) rfl rfl rfl rfl

/-! ### ProductExtractor: missing detail element -/

theorem nameStepRes_events (e : ProductEntry) (n : Nat) (pname folder : Str)
    (ev0 : List FsEvent) (h : nameStepRes e n = .done (pname, folder, ev0)) :
    ev0 = [FsEvent.mkdir folder] := by
  cases hn : e.nameLookup with
  | ok t =>
    rw [nameStepRes, hn] at h
    simp only [StepOut.done.injEq, Prod.mk.injEq] at h
    rw [← h.2.1, ← h.2.2]
  | err ex =>
    cases ex with
    | noSuchElement =>
      rw [nameStepRes, hn] at h
      simp only [StepOut.done.injEq, Prod.mk.injEq] at h
      rw [← h.2.1, ← h.2.2]
    | clickIntercepted => rw [nameStepRes, hn] at h; exact absurd h (by simp)
    | otherExc => rw [nameStepRes, hn] at h; exact absurd h (by simp)

theorem swatchLoopAux_mem :
    ∀ (cs : List SwatchCtl) (folder : Str) (i : Nat) (ev : FsEvent),
      ev ∈ swatchLoopAux folder i cs →
      ∃ j b, ev = FsEvent.writeBytes (pathJoin folder (swatchName j)) b := by
  intro cs
  induction cs with
  | nil => intro folder i ev h; simp [swatchLoopAux] at h
  | cons c t ih =>
    intro folder i ev h
    rw [swatchLoopAux] at h
    cases hc : ctlEvent folder i c with
    | none =>
      rw [hc] at h
      exact ih folder (i + 1) ev h
    | some ev' =>
      rw [hc] at h
      rcases List.mem_cons.mp h with h' | h'
      · rw [ctlEvent] at hc
        cases hu : ctlImageUrl c with
        | none => rw [hu] at hc; exact absurd hc (by simp)
        | some u =>
          rw [hu] at hc
          cases hw : (download_image c.fetch).written with
          | none => rw [hw] at hc; exact absurd hc (by simp)
          | some body =>
            rw [hw] at hc
            exact ⟨i, body, by rw [h', ← Option.some.inj hc]⟩
      · exact ih folder (i + 1) ev h'

theorem step1_no_csv (e : ProductEntry) (folder : Str) (ev1 : List FsEvent)
    (h : step1 e folder = .done ev1) :
    ∀ ev ∈ ev1, isCsvWrite ev = false := by
  intro ev hev
  cases hm : e.mainImgLookup with
  | ok u =>
    cases u with
    | none =>
      rw [step1, hm] at h
      injection h with h2
      rw [← h2] at hev
      simp at hev
    | some url =>
      rw [step1, hm] at h
      cases hw : (download_image e.mainFetch).written with
      | none =>
        rw [hw] at h
        injection h with h2
        rw [← h2] at hev
        simp at hev
      | some body =>
        rw [hw] at h
        injection h with h2
        rw [← h2] at hev
        rcases List.mem_singleton.mp hev with rfl
        rfl
  | err ex =>
    cases ex with
    | noSuchElement =>
      rw [step1, hm] at h
      injection h with h2
      rw [← h2] at hev
      simp at hev
    | clickIntercepted => rw [step1, hm] at h; exact absurd h (by simp)
    | otherExc => rw [step1, hm] at h; exact absurd h (by simp)

theorem step2_no_csv (e : ProductEntry) (folder : Str) (ev2 : List FsEvent)
    (h : step2 e folder = .done ev2) :
    ∀ ev ∈ ev2, isCsvWrite ev = false := by
  intro ev hev
  cases hw : e.swatchLookup with
  | ok ctls =>
    rw [step2, hw] at h
    injection h with h2
    rw [← h2] at hev
    obtain ⟨j, b, rfl⟩ := swatchLoopAux_mem ctls folder 1 ev hev
    rfl
  | err ex =>
    cases ex with
    | noSuchElement =>
      rw [step2, hw] at h
      injection h with h2
      rw [← h2] at hev
      simp at hev
    | clickIntercepted => rw [step2, hw] at h; exact absurd h (by simp)
    | otherExc => rw [step2, hw] at h; exact absurd h (by simp)

theorem entryBody_abort_scroll (e : ProductEntry) (n : Nat) (ex : Exc)
    (hs : e.scrollRes = .err ex) : entryBody e n = ([], some ex) := by
  simp only [entryBody, hs]

theorem entryBody_abort_name (e : ProductEntry) (n : Nat) (ex : Exc)
    (hs : e.scrollRes = .ok ()) (h0 : nameStepRes e n = .raised ex) :
    entryBody e n = ([], some ex) := by
  simp only [entryBody, hs, h0]

theorem entryBody_abort1 (e : ProductEntry) (n : Nat) (pname folder : Str)
    (ev0 : List FsEvent) (ex : Exc)
    (hs : e.scrollRes = .ok ()) (h0 : nameStepRes e n = .done (pname, folder, ev0))
    (h1 : step1 e folder = .raised ex) : entryBody e n = (ev0, some ex) := by
  simp only [entryBody, hs, h0, h1]

theorem entryBody_abort2 (e : ProductEntry) (n : Nat) (pname folder : Str)
    (ev0 ev1 : List FsEvent) (ex : Exc)
    (hs : e.scrollRes = .ok ()) (h0 : nameStepRes e n = .done (pname, folder, ev0))
    (h1 : step1 e folder = .done ev1) (h2 : step2 e folder = .raised ex) :
    entryBody e n = (ev0 ++ ev1, some ex) := by
  simp only [entryBody, hs, h0, h1, h2]

theorem entryBody_abort3 (e : ProductEntry) (n : Nat) (pname folder : Str)
    (ev0 ev1 ev2 : List FsEvent) (ex : Exc)
    (hs : e.scrollRes = .ok ()) (h0 : nameStepRes e n = .done (pname, folder, ev0))
    (h1 : step1 e folder = .done ev1) (h2 : step2 e folder = .done ev2)
    (h3 : step3 e pname folder = .raised ex) :
    entryBody e n = (ev0 ++ ev1 ++ ev2, some ex) := by
  simp only [entryBody, hs, h0, h1, h2, h3]

/-- C10: when the entry's item-detail element is absent, no
product_details.csv write occurs at all — not even a partial record —
while the events of the earlier steps (folder creation and image
downloads) are exactly preserved. -/
theorem missing_detail_no_record (e : ProductEntry) (n : Nat)
    (hd : e.detailLookup = .err .noSuchElement) :
    (∀ ev ∈ processEntry e n, isCsvWrite ev = false) ∧
    (∀ (pname folder : Str) (ev0 ev1 ev2 : List FsEvent),
      e.scrollRes = .ok () →
      nameStepRes e n = .done (pname, folder, ev0) →
      step1 e folder = .done ev1 →
      step2 e folder = .done ev2 →
      processEntry e n = ev0 ++ ev1 ++ ev2) := by
  have hstep3 : ∀ pname folder : Str, step3 e pname folder = .done [] := by
    intro pname folder
    unfold step3; rw [hd]
  constructor
  · intro ev hev
    rw [processEntry] at hev
    cases hs : e.scrollRes with
    | err ex => rw [entryBody_abort_scroll e n ex hs] at hev; simp at hev
    | ok u =>
      cases u
      cases h0 : nameStepRes e n with
      | raised ex => rw [entryBody_abort_name e n ex hs h0] at hev; simp at hev
      | done pfe =>
        obtain ⟨pname, folder, ev0⟩ := pfe
        have hev0 : ev0 = [FsEvent.mkdir folder] :=
          nameStepRes_events e n pname folder ev0 h0
        cases h1 : step1 e folder with
        | raised ex =>
          rw [entryBody_abort1 e n pname folder ev0 ex hs h0 h1] at hev
          simp only [hev0] at hev
          rcases List.mem_singleton.mp hev with rfl
          rfl
        | done ev1 =>
          cases h2 : step2 e folder with
          | raised ex =>
            rw [entryBody_abort2 e n pname folder ev0 ev1 ex hs h0 h1 h2] at hev
            simp only [hev0] at hev
            rcases List.mem_append.mp hev with h' | h'
            · rcases List.mem_singleton.mp h' with rfl
              rfl
            · exact step1_no_csv e folder ev1 h1 ev h'
          | done ev2 =>
            rw [entryBody_cascade e n pname folder ev0 ev1 ev2 [] hs h0 h1 h2
              (hstep3 pname folder)] at hev
            simp only [hev0, List.append_nil] at hev
            rcases List.mem_append.mp hev with h' | h'
            · rcases List.mem_append.mp h' with h'' | h''
              · rcases List.mem_singleton.mp h'' with rfl
                rfl
              · exact step1_no_csv e folder ev1 h1 ev h''
            · exact step2_no_csv e folder ev2 h2 ev h'
  · intro pname folder ev0 ev1 ev2 hs h0 h1 h2
    rw [processEntry,
      entryBody_cascade e n pname folder ev0 ev1 ev2 [] hs h0 h1 h2
        (hstep3 pname folder)]
    simp

/-- C10 witness: for a concrete entry with a missing item-detail element,
the single emitted event (the folder creation) is not a CSV write. -/
theorem missing_detail_no_record_witness :
    isCsvWrite (FsEvent.mkdir ("scraped_products/Chair".toList)) = false :=
  (missing_detail_no_record demoEntry 1 rfl).1
    (FsEvent.mkdir ("scraped_products/Chair".toList)) (by decide)

/-! ### Degenerate sanitized names -/

theorem mem_natStrGo :
    ∀ (fuel n : Nat) (acc : Str) (c : Char), c ∈ natStrGo fuel n acc →
      (∃ d, d < 10 ∧ c = Nat.digitChar d) ∨ c ∈ acc := by
  intro fuel
  induction fuel with
  | zero => intro n acc c h; exact Or.inr h
  | succ f ih =>
    intro n acc c h
    rw [natStrGo] at h
    by_cases hn : n < 10
    · rw [if_pos hn] at h
      rcases List.mem_cons.mp h with h' | h'
      · exact Or.inl ⟨n, hn, h'⟩
      · exact Or.inr h'
    · rw [if_neg hn] at h
      rcases ih (n / 10) (Nat.digitChar (n % 10) :: acc) c h with h' | h'
      · exact Or.inl h'
      · rcases List.mem_cons.mp h' with h'' | h''
        · exact Or.inl ⟨n % 10, Nat.mod_lt _ (by omega), h''⟩
        · exact Or.inr h''

theorem natStr_no_slash (n : Nat) : '/' ∉ natStr n := by
  intro h
  rcases mem_natStrGo (n + 1) n [] '/' h with ⟨d, hd, hc⟩ | h'
  · have : ∀ d : Nat, d < 10 → Nat.digitChar d ≠ '/' := by decide
    exact this d hd hc.symm
  · simp at h'

theorem swatchName_no_slash (i : Nat) : '/' ∉ swatchName i := by
  intro h
  rw [swatchName] at h
  rcases List.mem_append.mp h with h' | h'
  · rcases List.mem_append.mp h' with h'' | h''
    · simp at h''
    · exact natStr_no_slash i h''
  · simp at h'

theorem rootLevel_join (f : Str) (hf : '/' ∉ f) :
    rootLevelPath (pathJoin rootSlash f) := by
  have hhd : f.head? ≠ some '/' := by
    cases f with
    | nil => simp
    | cons c t =>
      simp only [List.head?_cons, ne_eq, Option.some.injEq]
      intro hc
      exact hf (by simp [hc])
  have hjoin : pathJoin rootSlash f = rootSlash ++ f := by
    rw [pathJoin, if_neg hhd]
    have h1 : rootSlash ≠ [] := by decide
    have h2 : rootSlash.getLast? = some '/' := by decide
    rw [if_neg h1, if_pos h2]
  rw [hjoin, rootLevelPath]
  constructor
  · exact List.take_left rootSlash f
  · rw [List.drop_left]
    exact hf

theorem rootLevelPath_rootSlash : rootLevelPath rootSlash := by
  rw [rootLevelPath]
  constructor
  · exact List.take_of_length_le (by decide)
  · rw [List.drop_length]
    simp

theorem step1_paths (e : ProductEntry) (folder : Str) (ev1 : List FsEvent)
    (h : step1 e folder = .done ev1) :
    ∀ ev ∈ ev1, eventPath ev = pathJoin folder mainImageName := by
  intro ev hev
  cases hm : e.mainImgLookup with
  | ok u =>
    cases u with
    | none =>
      rw [step1, hm] at h
      injection h with h2
      rw [← h2] at hev
      simp at hev
    | some url =>
      rw [step1, hm] at h
      cases hw : (download_image e.mainFetch).written with
      | none =>
        rw [hw] at h
        injection h with h2
        rw [← h2] at hev
        simp at hev
      | some body =>
        rw [hw] at h
        injection h with h2
        rw [← h2] at hev
        rcases List.mem_singleton.mp hev with rfl
        rfl
  | err ex =>
    cases ex with
    | noSuchElement =>
      rw [step1, hm] at h
      injection h with h2
      rw [← h2] at hev
      simp at hev
    | clickIntercepted => rw [step1, hm] at h; exact absurd h (by simp)
    | otherExc => rw [step1, hm] at h; exact absurd h (by simp)

theorem step2_paths (e : ProductEntry) (folder : Str) (ev2 : List FsEvent)
    (h : step2 e folder = .done ev2) :
    ∀ ev ∈ ev2, ∃ j, eventPath ev = pathJoin folder (swatchName j) := by
  intro ev hev
  cases hw : e.swatchLookup with
  | ok ctls =>
    rw [step2, hw] at h
    injection h with h2
    rw [← h2] at hev
    obtain ⟨j, b, rfl⟩ := swatchLoopAux_mem ctls folder 1 ev hev
    exact ⟨j, rfl⟩
  | err ex =>
    cases ex with
    | noSuchElement =>
      rw [step2, hw] at h
      injection h with h2
      rw [← h2] at hev
      simp at hev
    | clickIntercepted => rw [step2, hw] at h; exact absurd h (by simp)
    | otherExc => rw [step2, hw] at h; exact absurd h (by simp)

theorem step3_paths (e : ProductEntry) (pname folder : Str) (ev3 : List FsEvent)
    (h : step3 e pname folder = .done ev3) :
    ∀ ev ∈ ev3, eventPath ev = pathJoin folder csvFileName := by
  intro ev hev
  cases hd : e.detailLookup with
  | ok d =>
    cases hp : e.pricingLookup with
    | ok p =>
      rw [step3, hd, hp] at h
      injection h with h2
      rw [← h2] at hev
      rcases List.mem_singleton.mp hev with rfl
      rfl
    | err ex =>
      cases ex with
      | noSuchElement =>
        rw [step3, hd, hp] at h
        injection h with h2
        rw [← h2] at hev
        rcases List.mem_singleton.mp hev with rfl
        rfl
      | clickIntercepted => rw [step3, hd, hp] at h; exact absurd h (by simp)
      | otherExc => rw [step3, hd, hp] at h; exact absurd h (by simp)
  | err ex =>
    cases ex with
    | noSuchElement =>
      rw [step3, hd] at h
      injection h with h2
      rw [← h2] at hev
      simp at hev
    | clickIntercepted => rw [step3, hd] at h; exact absurd h (by simp)
    | otherExc => rw [step3, hd] at h; exact absurd h (by simp)

theorem processEntry_paths (e : ProductEntry) (n : Nat) (pname folder : Str)
    (ev0 : List FsEvent) (h0 : nameStepRes e n = .done (pname, folder, ev0)) :
    ∀ ev ∈ processEntry e n,
      eventPath ev = folder ∨ eventPath ev = pathJoin folder mainImageName ∨
      (∃ j, eventPath ev = pathJoin folder (swatchName j)) ∨
      eventPath ev = pathJoin folder csvFileName := by
  intro ev hev
  have hev0 : ev0 = [FsEvent.mkdir folder] :=
    nameStepRes_events e n pname folder ev0 h0
  have hmk : ∀ ev' : FsEvent, ev' ∈ ev0 → eventPath ev' = folder := by
    intro ev' h'
    rw [hev0] at h'
    rcases List.mem_singleton.mp h' with rfl
    rfl
  rw [processEntry] at hev
  cases hs : e.scrollRes with
  | err ex => rw [entryBody_abort_scroll e n ex hs] at hev; simp at hev
  | ok u =>
    cases u
    cases h1 : step1 e folder with
    | raised ex =>
      rw [entryBody_abort1 e n pname folder ev0 ex hs h0 h1] at hev
      exact Or.inl (hmk ev hev)
    | done ev1 =>
      cases h2 : step2 e folder with
      | raised ex =>
        rw [entryBody_abort2 e n pname folder ev0 ev1 ex hs h0 h1 h2] at hev
        rcases List.mem_append.mp hev with h' | h'
        · exact Or.inl (hmk ev h')
        · exact Or.inr (Or.inl (step1_paths e folder ev1 h1 ev h'))
      | done ev2 =>
        cases h3 : step3 e pname folder with
        | raised ex =>
          rw [entryBody_abort3 e n pname folder ev0 ev1 ev2 ex hs h0 h1 h2 h3] at hev
          rcases List.mem_append.mp hev with h' | h'
          · rcases List.mem_append.mp h' with h'' | h''
            · exact Or.inl (hmk ev h'')
            · exact Or.inr (Or.inl (step1_paths e folder ev1 h1 ev h''))
          · exact Or.inr (Or.inr (Or.inl (step2_paths e folder ev2 h2 ev h')))
        | done ev3 =>
          rw [entryBody_cascade e n pname folder ev0 ev1 ev2 ev3 hs h0 h1 h2 h3] at hev
          rcases List.mem_append.mp hev with h' | h'
          · rcases List.mem_append.mp h' with h'' | h''
            · rcases List.mem_append.mp h'' with h3' | h3'
              · exact Or.inl (hmk ev h3')
              · exact Or.inr (Or.inl (step1_paths e folder ev1 h1 ev h3'))
            · exact Or.inr (Or.inr (Or.inl (step2_paths e folder ev2 h2 ev h'')))
          · exact Or.inr (Or.inr (Or.inr (step3_paths e pname folder ev3 h3 ev h')))

/-- C9 (amended): if a product's raw name has non-whitespace content (so
the stripped name is non-empty and no positional fallback is
substituted) but sanitizes to the empty string, the product folder path
degenerates to the shared scraped_products root and every file of that
product is written directly into the root directory. -/
theorem empty_sanitized_root (e : ProductEntry) (n : Nat) (t : Str)
    (hn : e.nameLookup = .ok t) (hne : strip t ≠ [])
    (hsan : sanitize_folder_name (strip t) = []) :
    nameStepRes e n = .done (strip t, rootSlash, [FsEvent.mkdir rootSlash]) ∧
    (∀ ev ∈ processEntry e n, rootLevelPath (eventPath ev)) := by
  have hjoin : pathJoin rootDir ([] : Str) = rootSlash := by decide
  have h0 : nameStepRes e n
      = .done (strip t, rootSlash, [FsEvent.mkdir rootSlash]) := by
    unfold nameStepRes
    rw [hn]
    simp only [if_neg hne, hsan, hjoin]
  refine ⟨h0, ?_⟩
  intro ev hev
  rcases processEntry_paths e n (strip t) rootSlash [FsEvent.mkdir rootSlash]
      h0 ev hev with h | h | ⟨j, h⟩ | h
  · rw [h]; exact rootLevelPath_rootSlash
  · rw [h]; exact rootLevel_join mainImageName (by decide)
  · rw [h]; exact rootLevel_join (swatchName j) (swatchName_no_slash j)
  · rw [h]; exact rootLevel_join csvFileName (by decide)

def e9 : ProductEntry :=
  { scrollRes := .ok (), nameLookup := .ok "???".toList,
    mainImgLookup := .ok none, mainFetch := .exn, swatchLookup := .ok [],
    detailLookup := .err .noSuchElement, pricingLookup := .err .noSuchElement }

/-- C9 witness: the raw name "???" strips to itself (non-empty) but
sanitizes to the empty string, and the name step keeps "???" as product
name while the folder degenerates to the scraped_products root. -/
theorem empty_sanitized_root_witness :
    nameStepRes e9 1 = .done (strip "???".toList, rootSlash,
      [FsEvent.mkdir rootSlash]) :=
  (empty_sanitized_root e9 1 "???".toList rfl (by decide) (by decide)).1

def cexEntryC9 : ProductEntry :=
  { scrollRes := .ok (), nameLookup := .ok " ".toList,
    mainImgLookup := .ok none, mainFetch := .exn, swatchLookup := .ok [],
    detailLookup := .err .noSuchElement, pricingLookup := .err .noSuchElement }

/-- C9 counterexample: the raw name " " is non-empty and sanitizes to the
empty string, yet the positional fallback IS substituted (the code strips
the name before its emptiness test), so the product folder is
scraped_products/Product_3, not the degenerate root — refuting the claim
for whitespace-only raw names. -/
theorem whitespace_name_fallback_cex :
    (" ".toList : Str) ≠ [] ∧
    sanitize_folder_name " ".toList = [] ∧
    processEntry cexEntryC9 3 = [FsEvent.mkdir ("scraped_products/Product_3".toList)] := by
  decide
